import Mathlib

/-!
Verification development for the Rijksmuseum explorer repository.

The file shallowly embeds the Linked-Art adapter (`rijks_api.py`) and the
relevant card-rendering helpers of the Home page into Lean:

* Python strings are modelled as `List Char` (wrapped into `String` at the
  boundaries); `str.strip`, `str.lower`, substring tests, `str.split` and
  slicing are re-implemented character by character.
* Python's unbounded integers are modelled as `Int` (no overflow exists).
* Arbitrary JSON is the inductive `Rijks.Json`.
* Network effects (discovery search, PID resolution, HTML page fetches) are
  an explicit environment `Rijks.Env`; a `none`/`fail` answer stands for a
  non-success HTTP status or a raised transport exception.
* A Python function that can raise across the boundary of
  `search_artworks` is modelled with `Except`.
-/

namespace Rijks

/-! ### Python string primitives -/

/-- Whitespace recognised by Python `str.strip()` (the ASCII subset, which is
all the repository ever feeds it). -/
def pyIsWs (c : Char) : Bool :=
  c == ' ' || c == '\t' || c == '\n' || c == '\r' || c == '\x0b' || c == '\x0c'

/-- Python `str.strip()` on a character list. -/
def stripL (l : List Char) : List Char :=
  ((l.dropWhile pyIsWs).reverse.dropWhile pyIsWs).reverse

/-- Python `str.strip()`. -/
def stripS (s : String) : String := ⟨stripL s.data⟩

/-- Python `str.lower()` (ASCII case folding; the repository only lowercases
ASCII tokens). -/
def lowerS (s : String) : String := ⟨s.data.map Char.toLower⟩

/-- `leadMatch n l` holds when `n` is an initial segment of `l`. -/
def leadMatch : List Char → List Char → Bool
  | [], _ => true
  | _ :: _, [] => false
  | a :: ns, b :: l => a == b && leadMatch ns l

/-- Python's substring test `n in l`. -/
def hasSubL (n : List Char) : List Char → Bool
  | [] => leadMatch n []
  | c :: t => leadMatch n (c :: t) || hasSubL n t

/-- Python `needle in hay` on `String`. -/
def strHas (hay needle : String) : Bool := hasSubL needle.data hay.data

/-- Everything before the first occurrence of `n` (Python `l.split(n)[0]`
when `n` occurs in `l`, and all of `l` otherwise). -/
def takeBefore (n : List Char) : List Char → List Char
  | [] => []
  | c :: t => if leadMatch n (c :: t) then [] else c :: takeBefore n t

/-- Python `l.endswith(s)`. -/
def endsL (l s : List Char) : Bool := leadMatch s.reverse l.reverse

/-- Python `s.startswith(p)` on `String`. -/
def startsWithS (s p : String) : Bool := leadMatch p.data s.data

/-- Python `u.rstrip("/")`. -/
def rstripSlashL (l : List Char) : List Char :=
  (l.reverse.dropWhile (fun c => c == '/')).reverse

/-- Numeric value of a digit string (Python `int`, applied by the source only
to all-digit strings). -/
def digitsToNat (l : List Char) : Nat :=
  l.foldl (fun a c => a * 10 + (c.toNat - '0'.toNat)) 0

/-- Python `sep.join(xs)`. -/
def joinSep (sep : String) : List String → String
  | [] => ""
  | [x] => x
  | x :: y :: xs => x ++ sep ++ joinSep sep (y :: xs)

/-- Python string comparison (lexicographic on code points), strict. -/
def strLtL : List Char → List Char → Bool
  | [], [] => false
  | [], _ :: _ => true
  | _ :: _, [] => false
  | a :: x, b :: y =>
    if a.val < b.val then true else if b.val < a.val then false else strLtL x y

/-- Python `x <= y` on strings. -/
def strLeS (x y : String) : Bool := strLtL x.data y.data || x == y

/-! ### The IIIF URL normalizer (`_normalize_iiif_image_url`) -/

def infoJsonSuffix : List Char := "/info.json".data

def fullSegment : List Char := "/full/".data

/-- Suffix `/full/<width>,/0/default.jpg` appended by the normalizer. -/
def iiifTail (width : Nat) : List Char :=
  fullSegment ++ (toString width).data ++ ",/0/default.jpg".data

/-- Python `_normalize_iiif_image_url(url, width)` on character lists:
strip, then (1) an `/info.json` suffix is replaced by the canonical tail,
(2) else everything from the first `/full/` on is replaced by it,
(3) else the tail is appended after trailing slashes are removed. -/
def normalizeIiifImageUrlL (url : List Char) (width : Nat) : List Char :=
  let u := stripL url
  if endsL u infoJsonSuffix then
    u.take (u.length - 10) ++ iiifTail width
  else if hasSubL fullSegment u then
    takeBefore fullSegment u ++ iiifTail width
  else
    rstripSlashL u ++ iiifTail width

/-- Python `_normalize_iiif_image_url` on `String`. -/
def normalizeIiifImageUrl (url : String) (width : Nat) : String :=
  ⟨normalizeIiifImageUrlL url.data width⟩

/-! ### JSON values -/

/-- Arbitrary JSON, as handed around by the Python adapter. Python object
keys are kept in document order; numeric values are integers (the adapter
never reads a float). -/
inductive Json where
  | null
  | bool (b : Bool)
  | num (n : Int)
  | str (s : String)
  | arr (items : List Json)
  | obj (fields : List (String × Json))
deriving Repr

/-- First binding of key `k` (Python `dict` keys are unique, so this is
`dict.get`). -/
def lookupKv (k : String) : List (String × Json) → Option Json
  | [] => none
  | (k2, v) :: rest => if k2 = k then some v else lookupKv k rest

/-- Python `raw.get(k)`; `none` on non-objects (the adapter only calls it on
values it has checked to be dicts). -/
def Json.get (j : Json) (k : String) : Option Json :=
  match j with
  | .obj kvs => lookupKv k kvs
  | _ => none

/-- Python truthiness of a JSON value. -/
def Json.truthy : Json → Bool
  | .null => false
  | .bool b => b
  | .num n => n != 0
  | .str s => s ≠ ""
  | .arr xs => !xs.isEmpty
  | .obj kvs => !kvs.isEmpty

/-! ### Access-point extraction (`_extract_access_point_url`) -/

/-- Direct check performed at every dict node of the walk: an
`access_point` list whose first element is a dict with a non-blank string
`id`. -/
def accessPointHere (kvs : List (String × Json)) : Option String :=
  match lookupKv "access_point" kvs with
  | some (.arr (first :: _)) =>
    match first with
    | .obj fkvs =>
      match lookupKv "id" fkvs with
      | some (.str u) => if stripS u ≠ "" then some (stripS u) else none
      | _ => none
    | _ => none
  | _ => none

mutual
/-- Python `_extract_access_point_url`: the first `access_point[0].id`
anywhere in the record, visiting dict values and list items in document
order. -/
def extractAccessPointUrl : Json → Option String
  | .obj kvs =>
    match accessPointHere kvs with
    | some u => some u
    | none => accessPointInKvs kvs
  | .arr xs => accessPointInArr xs
  | _ => none

def accessPointInKvs : List (String × Json) → Option String
  | [] => none
  | (_, v) :: rest =>
    match extractAccessPointUrl v with
    | some u => some u
    | none => accessPointInKvs rest

def accessPointInArr : List Json → Option String
  | [] => none
  | x :: rest =>
    match extractAccessPointUrl x with
    | some u => some u
    | none => accessPointInArr rest
end

/-! ### URL utilities (`_clean_object_page_url`,
`_extract_object_number_from_access_point`) -/

def isHexLower (c : Char) : Bool := c.isDigit || ('a' ≤ c && c ≤ 'f')

/-- Does the WHOLE list match `--[a-f0-9]{10,}`? -/
def hashSuffixMatch : List Char → Bool
  | '-' :: '-' :: rest => rest.length ≥ 10 && rest.all isHexLower
  | _ => false

/-- Python `_clean_object_page_url`: `re.sub(r"--[a-f0-9]{10,}$", "", url)`
removes the suffix starting at the leftmost position where the anchored
pattern matches. -/
def cleanObjectPageUrlL : List Char → List Char
  | [] => []
  | c :: t => if hashSuffixMatch (c :: t) then [] else c :: cleanObjectPageUrlL t

def cleanObjectPageUrl (s : String) : String := ⟨cleanObjectPageUrlL s.data⟩

/-- Character class `[A-Z0-9-]` of the object-number regex. -/
def isObjChar (c : Char) : Bool := ('A' ≤ c && c ≤ 'Z') || c.isDigit || c == '-'

/-- Lazy body of `(SK-[A-Z0-9-]+?)(?:--|/|$)` after at least one class
character was consumed: stop at the first `--`, `/` or end of string. -/
def objBodyGo : List Char → Option (List Char)
  | [] => some []
  | c :: t =>
    if leadMatch "--".data (c :: t) then some []
    else if c == '/' then some []
    else if isObjChar c then (objBodyGo t).map (c :: ·)
    else none

/-- The lazy `[A-Z0-9-]+?` needs at least one character. -/
def objBodyStart : List Char → Option (List Char)
  | [] => none
  | c :: t => if isObjChar c then (objBodyGo t).map (c :: ·) else none

/-- Match `/object/(SK-[A-Z0-9-]+?)(?:--|/|$)` at this position, returning
the captured group. -/
def objNumAt (l : List Char) : Option String :=
  if leadMatch "/object/SK-".data l then
    (objBodyStart (l.drop 11)).map (fun body => ⟨"SK-".data ++ body⟩)
  else none

def objNumSearch : List Char → Option String
  | [] => none
  | c :: t =>
    match objNumAt (c :: t) with
    | some s => some s
    | none => objNumSearch t

/-- Python `_extract_object_number_from_access_point`. -/
def extractObjectNumberFromAccessPoint (url : String) : Option String :=
  objNumSearch url.data

/-! ### Principal maker (`_extract_principal_maker`) -/

/-- Python `add_candidate`: the trimmed name, unless blank or an explicit
unknown label. (The Python list also deduplicates; only the first candidate
is ever used, so the dedup is irrelevant to the result and elided.) -/
def addCandidate (s : String) : Option String :=
  let n := stripS s
  if n = "" then none
  else if lowerS n = "unknown" ∨ lowerS n = "unknown artist" ∨ lowerS n = "onbekend" ∨
      lowerS n = "onbekende kunstenaar" then none
  else some n

/-- Python `scan_agent`: candidates from `identified_by[*].content`, then
from the `_label` / `label` / `name` fallbacks. -/
def agentCandidates : Json → List String
  | .obj kvs =>
    let fromIds : List String :=
      match lookupKv "identified_by" kvs with
      | some (.arr ids) =>
        ids.filterMap fun i =>
          match i with
          | .obj ikvs =>
            match lookupKv "content" ikvs with
            | some (.str c) => addCandidate c
            | _ => none
          | _ => none
      | _ => []
    let fromLabels : List String :=
      ["_label", "label", "name"].filterMap fun k =>
        match lookupKv k kvs with
        | some (.str v) => addCandidate v
        | _ => none
    fromIds ++ fromLabels
  | _ => []

/-- Agents of `prod.get("carried_out_by") or []`; a truthy non-list value is
wrapped in a singleton list. -/
def carriedCandidates : List (String × Json) → List String
  | [] => []
  | (k, v) :: rest =>
    if k = "carried_out_by" then
      if v.truthy then
        match v with
        | .arr ags => (ags.map agentCandidates).flatten
        | other => agentCandidates other
      else []
    else carriedCandidates rest

mutual
/-- Python `scan_produced`, collecting candidates in call order: the
`carried_out_by` agents first, then recursively the nested `part` list. -/
def producedCandidates : Json → List String
  | .obj kvs => carriedCandidates kvs ++ partCandidates kvs
  | .arr xs => producedCandidatesList xs
  | _ => []

/-- `prod.get("part") or []` followed by the `isinstance(parts, list)` test:
only an actual list is recursed into. -/
def partCandidates : List (String × Json) → List String
  | [] => []
  | (k, v) :: rest =>
    if k = "part" then
      match v with
      | .arr ps => producedCandidatesList ps
      | _ => []
    else partCandidates rest

def producedCandidatesList : List Json → List String
  | [] => []
  | p :: rest => producedCandidates p ++ producedCandidatesList rest
end

/-- Python `_extract_principal_maker`: first candidate, else the
`"Unknown artist"` sentinel. -/
def extractPrincipalMaker (raw : Json) : String :=
  let candidates :=
    match raw.get "produced_by" with
    | some p => producedCandidates p
    | none => []
  match candidates with
  | c :: _ => c
  | [] => "Unknown artist"

/-! ### Attribution classification (`_collect_attribution_texts`,
`_classify_attribution`) -/

/-- Python `pull`: non-blank trimmed `referred_to_by[*].content` strings of
one node (non-dict nodes and non-list `referred_to_by` values yield
nothing). -/
def pullTexts : Json → List String
  | .obj kvs =>
    match lookupKv "referred_to_by" kvs with
    | some (.arr items) =>
      items.filterMap fun it =>
        match it with
        | .obj ikvs =>
          match lookupKv "content" ikvs with
          | some (.str c) => if stripS c ≠ "" then some (stripS c) else none
          | _ => none
        | _ => none
    | _ => []
  | _ => []

/-- Python `_collect_attribution_texts`: texts of `produced_by` itself and of
each element of its `part` list. -/
def collectAttributionTexts (raw : Json) : List String :=
  match raw.get "produced_by" with
  | some (.obj kvs) =>
    pullTexts (.obj kvs) ++
      (match lookupKv "part" kvs with
       | some (.arr ps) => (ps.map pullTexts).flatten
       | _ => [])
  | _ => []

/-- Python `_classify_attribution`. -/
def classifyAttribution (raw : Json) (artistName : String) : String :=
  if artistName = "" ∨ artistName = "Unknown artist" then "unknown"
  else
    let name := lowerS artistName
    let texts := lowerS (joinSep " | " (collectAttributionTexts raw))
    if texts = "" ∨ strHas texts name = false then "unknown"
    else if ["attributed to", "toegeschreven aan", "zugeschrieben",
        "attribué à"].any (fun w => strHas texts w) then "attributed"
    else if ["workshop of", "atelier van", "werkplaats",
        "atelier de"].any (fun w => strHas texts w) then "workshop"
    else if ["circle of", "kring van", "school of", "navolger", "follower of",
        "cercle de"].any (fun w => strHas texts w) then "circle"
    else if ["after ", "naar ", "nach ", "d\x27après", "copy after",
        "kopie naar"].any (fun w => strHas texts w) then "after"
    else if ["painter:", "schilder:", "artist:", "gemaakt door",
        "door "].any (fun w => strHas texts w) then "direct"
    else "attributed"

/-! ### Deep image search (`_deep_find_iiif_image_url`) -/

mutual
/-- Python `walk` of `_deep_find_iiif_image_url`: every string value that
begins with `http`, in document order. -/
def httpCandidates : Json → List String
  | .obj kvs => httpCandidatesKvs kvs
  | .arr xs => httpCandidatesArr xs
  | .str s => if startsWithS s "http" then [s] else []
  | _ => []

def httpCandidatesKvs : List (String × Json) → List String
  | [] => []
  | (_, v) :: rest => httpCandidates v ++ httpCandidatesKvs rest

def httpCandidatesArr : List Json → List String
  | [] => []
  | x :: rest => httpCandidates x ++ httpCandidatesArr rest
end

def imageExts : List String := [".jpg", ".jpeg", ".png", ".webp", ".tif", ".tiff"]

/-- Python `_deep_find_iiif_image_url` (the terminal debug printing is a
no-op here): the first candidate with a raster-image extension wins, then
the first IIIF-looking Rijksmuseum URL. -/
def deepFindIiifImageUrl (raw : Json) : Option String :=
  let candidates := httpCandidates raw
  match candidates.find? (fun url => imageExts.any (fun e => endsL (lowerS url).data e.data)) with
  | some u => some u
  | none =>
    candidates.find? (fun url => strHas (lowerS url) "iiif" && strHas (lowerS url) "rijksmuseum")

/-! ### HTML scrapers (`_extract_iiif_from_html`,
`_extract_artist_from_object_html`)

These model the Python regex searches: leftmost starting position, greedy
quantifiers, `IGNORECASE` where the source sets it. No theorem in this file
depends on their output (the claims under verification never reach the HTML
fallback), but the record mapper calls them, so they are embedded. -/

def notQuote (c : Char) : Bool := !(c == '"' || c == '\x27')

/-- Length of the URL scheme `https?://` (greedy `s?`) at this position,
case-insensitively. -/
def schemeLen (l : List Char) : Option Nat :=
  let low := l.map Char.toLower
  if leadMatch "https://".data low then some 8
  else if leadMatch "http://".data low then some 7
  else none

/-- End position (start index of `/info.json`) of the last `/info.json` in
the run that has an `iiif` occurrence entirely before it; this is where the
greedy match `[^"\x27]*iiif[^"\x27]*/info\.json` ends. -/
def lastInfoEnd (rl : List Char) : Option Nat :=
  (List.range (rl.length + 1)).foldl
    (fun acc j =>
      if leadMatch "/info.json".data (rl.drop j) && hasSubL "iiif".data (rl.take j) then some j
      else acc)
    none

/-- Match `https?://[^"\x27]*iiif[^"\x27]*/info\.json` (IGNORECASE) at this
position. -/
def iiifInfoAt (l : List Char) : Option (List Char) :=
  match schemeLen l with
  | some k =>
    let run := (l.drop k).takeWhile notQuote
    match lastInfoEnd (run.map Char.toLower) with
    | some j => some (l.take k ++ run.take (j + 10))
    | none => none
  | none => none

def iiifInfoSearch : List Char → Option (List Char)
  | [] => none
  | c :: t =>
    match iiifInfoAt (c :: t) with
    | some m => some m
    | none => iiifInfoSearch t

/-- Match `https?://[^"\x27]*iiif[^"\x27]*/full/[^"\x27]+` (IGNORECASE) at
this position; the trailing greedy `[^"\x27]+` extends the match to the end
of the quote-free run. -/
def iiifFullAt (l : List Char) : Option (List Char) :=
  match schemeLen l with
  | some k =>
    let run := (l.drop k).takeWhile notQuote
    let rl := run.map Char.toLower
    if (List.range rl.length).any (fun p =>
        leadMatch "/full/".data (rl.drop p) && hasSubL "iiif".data (rl.take p) &&
          p + 6 < rl.length) then
      some (l.take k ++ run)
    else none
  | none => none

def iiifFullSearch : List Char → Option (List Char)
  | [] => none
  | c :: t =>
    match iiifFullAt (c :: t) with
    | some m => some m
    | none => iiifFullSearch t

/-- Python `_extract_iiif_from_html`: an `info.json` IIIF URL is preferred,
else a `/full/` IIIF URL. -/
def extractIiifFromHtml (html : String) : Option String :=
  match iiifInfoSearch html.data with
  | some m => some ⟨m⟩
  | none => (iiifFullSearch html.data).map (fun m => ⟨m⟩)

def isWordChar (c : Char) : Bool := c.isAlpha || c.isDigit || c == '_'

/-- Regex `\s`. -/
def reWs (c : Char) : Bool := pyIsWs c

/-- Class `[a-z\s-]` under IGNORECASE. -/
def roleClassChar (c : Char) : Bool := c.isAlpha || reWs c || c == '-'

/-- Tail `\s*:\s*([^<\n\r]+)` shared by the first two artist patterns;
returns the raw group-2 capture. -/
def roleTail (l : List Char) : Option String :=
  match l.dropWhile reWs with
  | ':' :: l3 =>
    let cap := (l3.dropWhile reWs).takeWhile (fun c => !(c == '<' || c == '\n' || c == '\r'))
    if cap.isEmpty then none else some ⟨cap⟩
  | _ => none

/-- Tail `\s*\(artist\)` + `roleTail` of the first artist pattern. -/
def artistTail (l : List Char) : Option String :=
  let l1 := l.dropWhile reWs
  if leadMatch "(artist)".data (l1.map Char.toLower) then roleTail (l1.drop 8)
  else none

/-- Pattern 1 body at a word boundary:
`([a-z][a-z\s-]{2,})\s*\(artist\)\s*:\s*([^<\n\r]+)` (IGNORECASE), greedy in
the role run. -/
def artistPat1At : List Char → Option String
  | [] => none
  | c0 :: rest =>
    if c0.isAlpha then
      let maxRun := (rest.takeWhile roleClassChar).length
      (List.range (maxRun + 1)).reverse.findSome? fun k =>
        if k ≥ 2 then artistTail (rest.drop k) else none
    else none

def artistPat1Go : Option Char → List Char → Option String
  | _, [] => none
  | prev, c :: t =>
    let boundaryOk := match prev with
      | none => true
      | some p => !isWordChar p
    match (if boundaryOk then artistPat1At (c :: t) else none) with
    | some r => some r
    | none => artistPat1Go (some c) t

def roleWords : List String := ["painter", "artist", "maker", "draftsman", "engraver", "designer"]

/-- Pattern 2 at a word boundary:
`(painter|artist|maker|draftsman|engraver|designer)\s*:\s*([^<\n\r]+)`
(IGNORECASE), alternatives tried in order. -/
def artistPat2At (l : List Char) : Option String :=
  roleWords.findSome? fun w =>
    if leadMatch w.data (l.map Char.toLower) then roleTail (l.drop w.length)
    else none

def artistPat2Go : Option Char → List Char → Option String
  | _, [] => none
  | prev, c :: t =>
    let boundaryOk := match prev with
      | none => true
      | some p => !isWordChar p
    match (if boundaryOk then artistPat2At (c :: t) else none) with
    | some r => some r
    | none => artistPat2Go (some c) t

/-- Repetition `(?:\s+[A-Z][^\n,]{2,})+` covering the whole list, tested
over all split points (with `\s+` kept inside the comma-free span). -/
def nameRepOkF : Nat → List Char → Bool
  | 0, _ => false
  | fuel + 1, l =>
    let w := (l.takeWhile reWs).length
    decide (w ≥ 1) &&
      (match l.drop w with
       | c :: rest =>
         c.isUpper &&
           (let run := (rest.takeWhile (fun d => !(d == '\n' || d == ','))).length
            (List.range (run + 1)).any fun k =>
              decide (k ≥ 2) &&
                (let rem := rest.drop k
                 rem.isEmpty || nameRepOkF fuel rem))
       | [] => false)

/-- Group 2 of pattern 3: `[A-Z][^\n,]{2,}(?:\s+[A-Z][^\n,]{2,})+`, covering
the whole span. -/
def spanNameOk : List Char → Bool
  | [] => false
  | c :: rest =>
    c.isUpper &&
      (let run := (rest.takeWhile (fun d => !(d == '\n' || d == ','))).length
       (List.range (run + 1)).any fun k =>
         decide (k ≥ 2) && nameRepOkF (rest.drop k).length (rest.drop k))

/-- Trailer `\s*\d{3,4}\s*[-–]\s*\d{3,4}` of pattern 3 (the first year run
must be exactly 3 or 4 digits; the second is cut greedily at 4). -/
def yearsOk (l : List Char) : Bool :=
  let l1 := l.dropWhile reWs
  let d1 := (l1.takeWhile Char.isDigit).length
  (d1 == 3 || d1 == 4) &&
    (match (l1.drop d1).dropWhile reWs with
     | c :: l3 =>
       (c == '-' || c == '–') &&
         decide ((((l3.dropWhile reWs).takeWhile Char.isDigit).length) ≥ 3)
     | [] => false)

/-- Pattern 3 after its `(^|\n)` anchor:
`\s*([A-Z][^\n,]{2,}(?:\s+[A-Z][^\n,]{2,})+)\s*,\s*\d{3,4}\s*[-–]\s*\d{3,4}`;
the group-2 span runs to the first comma. -/
def artistPat3At (l : List Char) : Option String :=
  let body := l.dropWhile reWs
  let span := body.takeWhile (fun c => !(c == ',' || c == '\n'))
  match body.drop span.length with
  | ',' :: after =>
    if spanNameOk span && yearsOk after then some ⟨span⟩ else none
  | _ => none

def artistPat3Scan : List Char → Option String
  | [] => none
  | c :: t =>
    match (if c == '\n' then artistPat3At t else none) with
    | some r => some r
    | none => artistPat3Scan t

def artistPat3 (l : List Char) : Option String :=
  match artistPat3At l with
  | some r => some r
  | none => artistPat3Scan l

/-- Python `_extract_artist_from_object_html`: three regex strategies in
order; a match whose stripped group is empty falls through to the next
strategy. -/
def extractArtistFromObjectHtml (html : String) : Option String :=
  if html = "" then none
  else
    [artistPat1Go none html.data, artistPat2Go none html.data,
      artistPat3 html.data].findSome? fun r =>
      match r with
      | some cap => if stripS cap ≠ "" then some (stripS cap) else none
      | none => none

/-! ### The network environment -/

/-- Outcome of one discovery GET: a non-success HTTP status (which the
Python code turns into a raised `RijksAPIError`), or a parsed JSON body. -/
inductive DiscResp where
  | fail (status : Nat) (body : String)
  | ok (data : Json)

def DiscResp.isFail : DiscResp → Bool
  | .fail _ _ => true
  | .ok _ => false

/-- Network effects of the adapter. `resolve` is `_fetch_linked_art_json`
(`none` = raised `RijksAPIError`, which `search_artworks` catches and
skips); `htmlGet` is a plain page fetch (`none` = non-success status,
non-string body or transport exception). -/
structure Env where
  discovery : String → String → DiscResp
  resolve : String → Option Json
  htmlGet : String → Option String

/-- Python `_extract_image_url_from_linked_art`: deep JSON search first
(normalized at width 600), else the access-point HTML fallback (normalized
at width 900). -/
def extractImageUrlFromLinkedArt (env : Env) (raw : Json) : Option String :=
  match deepFindIiifImageUrl raw with
  | some iiif => some (normalizeIiifImageUrl iiif 600)
  | none =>
    match extractAccessPointUrl raw with
    | none => none
    | some accessUrl =>
      match env.htmlGet accessUrl with
      | none => none
      | some htmlText =>
        match extractIiifFromHtml htmlText with
        | none => none
        | some h => some (normalizeIiifImageUrl h 900)

/-! ### The record mapper (`_map_linked_art_to_legacy_dict`) -/

/-- Value of one `("@id" | "id")` probe of the PID loop. -/
def pidKeyVal (raw : Json) (k : String) : Option String :=
  match raw.get k with
  | some (.str v) => if stripS v ≠ "" then some (stripS v) else none
  | _ => none

/-- Step 1: the persistent identifier. -/
def pidUrlOf (raw : Json) : Option String :=
  match pidKeyVal raw "@id" with
  | some v => some v
  | none => pidKeyVal raw "id"

/-- Step 2: the title, defaulting to `"Untitled"`. -/
def titleOf (raw : Json) : String :=
  match raw.get "identified_by" with
  | some (.arr ids) =>
    match ids.findSome? (fun i =>
        match i with
        | .obj ikvs =>
          match lookupKv "content" ikvs with
          | some (.str c) => if stripS c ≠ "" then some (stripS c) else none
          | _ => none
        | _ => none) with
    | some t => t
    | none => "Untitled"
  | _ => "Untitled"

/-- Step 4: the cleaned public page URL (may be empty and hence falsy). -/
def publicUrlOf (raw : Json) : Option String :=
  (extractAccessPointUrl raw).map cleanObjectPageUrl

def canonicalPrefixes : List String := ["SK-", "RP-", "BK-", "NG-", "AK-", "NM-"]

def hasCanonical (objectNumber : String) : Bool :=
  canonicalPrefixes.any (fun p => startsWithS objectNumber p)

/-- Steps 4a/4b: the object number (PID fallback, then the access-point URL,
then a canonical `identified_by` entry). -/
def objectNumberOf (raw : Json) : String :=
  let base := stripS ((pidUrlOf raw).getD "unknown-id")
  let fromUrl : Option String :=
    match publicUrlOf raw with
    | some pu =>
      if pu ≠ "" then
        match extractObjectNumberFromAccessPoint pu with
        | some o => if stripS o ≠ "" then some (stripS o) else none
        | none => none
      else none
    | none => none
  let n1 := match fromUrl with
    | some o => o
    | none => base
  if !hasCanonical n1 then
    match raw.get "identified_by" with
    | some (.arr ids) =>
      match ids.findSome? (fun i =>
          match i with
          | .obj ikvs =>
            match lookupKv "content" ikvs with
            | some (.str c) => if hasCanonical (stripS c) then some (stripS c) else none
            | _ => none
          | _ => none) with
      | some c => c
      | none => n1
    | _ => n1
  else n1

/-- Step 4c: the stable web URL (canonical collection URL, else the truthy
public URL, else the PID). -/
def stableWebUrlOf (raw : Json) : Option String :=
  let objectNumber := objectNumberOf raw
  if hasCanonical objectNumber then
    some ("https://www.rijksmuseum.nl/en/collection/" ++ objectNumber)
  else
    match publicUrlOf raw with
    | some pu => if pu ≠ "" then some pu else pidUrlOf raw
    | none => pidUrlOf raw

/-- Step 5: the principal maker, with the one-shot HTML fallback taken only
when the JSON extraction produced the unknown sentinel and a stable URL
exists. -/
def principalResolved (env : Env) (raw : Json) : String :=
  let principal := extractPrincipalMaker raw
  if principal = "Unknown artist" then
    match stableWebUrlOf raw with
    | some u =>
      match env.htmlGet u with
      | some page =>
        match extractArtistFromObjectHtml page with
        | some a => a
        | none => principal
      | none => principal
    | none => principal
  else principal

/-- The `dating` dict produced by the mapper. -/
structure Dating where
  year : Option Int
  presentingDate : Option String
deriving DecidableEq, Repr

/-- One candidate of the timespan loop: a string of length at least 4 whose
first four characters are digits gives `(int(c[:4]), c[:10])`. -/
def yearFromCandidate (c : String) : Option (Int × String) :=
  if decide (c.data.length ≥ 4) && (c.data.take 4).all Char.isDigit then
    some ((digitsToNat (c.data.take 4) : Int), ⟨c.data.take 10⟩)
  else none

/-- Step 6: dating from `produced_by.timespan`, first of
(`begin_of_the_begin`, `end_of_the_end`) that parses. -/
def datingOf (raw : Json) : Dating :=
  let timespan : Option Json :=
    match raw.get "produced_by" with
    | some pb => pb.get "timespan"
    | none => none
  match timespan with
  | some (.obj tkvs) =>
    let bob : Option String := match lookupKv "begin_of_the_begin" tkvs with
      | some (.str s) => some s
      | _ => none
    let eoe : Option String := match lookupKv "end_of_the_end" tkvs with
      | some (.str s) => some s
      | _ => none
    match (match bob.bind yearFromCandidate with
           | some r => some r
           | none => eoe.bind yearFromCandidate) with
    | some (y, pd) => { year := some y, presentingDate := if pd ≠ "" then some pd else none }
    | none => { year := none, presentingDate := none }
  | _ => { year := none, presentingDate := none }

/-- The legacy-like dict returned by the mapper (fields the source always
sets to constants are kept for completeness). -/
structure LegacyArt where
  objectNumber : String
  title : String
  principalOrFirstMaker : String
  dating : Dating
  materials : List String
  techniques : List String
  productionPlaces : List String
  linksWeb : Option String
  webImageUrl : Option String
  attributionTag : String
deriving DecidableEq, Repr

/-- Python `_map_linked_art_to_legacy_dict`. The function is total: the
Python body raises nothing (its network sub-fetches sit behind `env` and
their failures are `none`). -/
def mapLinkedArtToLegacyDict (env : Env) (raw : Json) : LegacyArt :=
  let principal := principalResolved env raw
  { objectNumber := objectNumberOf raw
    title := titleOf raw
    principalOrFirstMaker := principal
    dating := datingOf raw
    materials := []
    techniques := []
    productionPlaces := []
    linksWeb := stableWebUrlOf raw
    webImageUrl := extractImageUrlFromLinkedArt env raw
    attributionTag := classifyAttribution raw principal }

/-! ### Public helpers (`extract_year`) and the search pipeline -/

/-- Python `extract_year(dating)` applied to the dating dict built by the
mapper: an integer `year` wins, else the first four characters of
`presentingDate` if they are digits. -/
def extractYear (dating : Dating) : Option Int :=
  match dating.year with
  | some y => some y
  | none =>
    match dating.presentingDate with
    | some pd =>
      let p4 := pd.data.take 4
      if !p4.isEmpty && p4.all Char.isDigit then some ((digitsToNat p4 : Int)) else none
    | none => none

/-- Shape of a Python `_sort_key` tuple (a single sort uses one shape;
mixed shapes never get compared and are given an arbitrary answer). -/
inductive SortKey where
  | two (a b : String)
  | three (y : Int) (a b : String)
deriving DecidableEq, Repr

/-- The `extract_year(art.get("dating") or {}) or 10**9` value of
`_sort_key`: Python `or` replaces both a missing year and the falsy year `0`
with the `10^9` sentinel. -/
def sortYearOf (art : LegacyArt) : Int :=
  match extractYear art.dating with
  | some y => if y = 0 then 10 ^ 9 else y
  | none => 10 ^ 9

/-- Python `_sort_key`. -/
def sortKeyOf (sortMode : String) (art : LegacyArt) : SortKey :=
  let artist := lowerS art.principalOrFirstMaker
  let title := lowerS art.title
  let year : Int := sortYearOf art
  if sortMode = "relevance" ∨ sortMode = "artist" then .two artist title
  else if sortMode = "title" then .two title artist
  else if sortMode = "chronologic" then .three year artist title
  else if sortMode = "achronologic" then .three (-year) artist title
  else .two artist title

/-- Python `<=` on sort-key tuples (strings compared by code points). -/
def sortKeyLe : SortKey → SortKey → Bool
  | .two a b, .two c d =>
    if strLtL a.data c.data then true
    else if strLtL c.data a.data then false
    else if strLtL b.data d.data then true
    else if strLtL d.data b.data then false
    else true
  | .three y a b, .three z c d =>
    if y < z then true
    else if z < y then false
    else if strLtL a.data c.data then true
    else if strLtL c.data a.data then false
    else if strLtL b.data d.data then true
    else if strLtL d.data b.data then false
    else true
  | .two _ _, .three _ _ _ => true
  | .three _ _ _, .two _ _ => true

/-- Stable insertion: the element is placed before the first tail element it
is `le` to, preserving the original order of `le`-ties. -/
def insertLe (le : α → α → Bool) (x : α) : List α → List α
  | [] => [x]
  | y :: ys => if le x y then x :: y :: ys else y :: insertLe le x ys

/-- Stable ascending sort; with a total preorder `le` this coincides with
Python's stable `list.sort`. -/
def sortStable (le : α → α → Bool) (l : List α) : List α :=
  l.foldr (insertLe le) []

/-- The in-place `mapped.sort(key=_sort_key)` of `search_artworks`. -/
def searchSort (sortMode : String) (l : List LegacyArt) : List LegacyArt :=
  sortStable (fun a b => sortKeyLe (sortKeyOf sortMode a) (sortKeyOf sortMode b)) l

/-- Python list slicing `l[a:b]` (step 1): negative indices count from the
end, all indices clamp to the list. -/
def pySliceIdx (len : Nat) (i : Int) : Nat :=
  if i < 0 then (max 0 ((len : Int) + i)).toNat else min i.toNat len

def pySlice (l : List α) (a b : Int) : List α :=
  let s := pySliceIdx l.length a
  let e := pySliceIdx l.length b
  (l.drop s).take (e - s)

/-- Inner loop of `_search_ids` over one response's items: append unseen
non-blank string PIDs, reporting whether `limit` was reached (the Python
`len(ids) >= limit` early return). -/
def addPids (limit : Int) : List Json → List String → List String × Bool
  | [], ids => (ids, false)
  | item :: rest, ids =>
    match item.get "id" with
    | some (.str pid) =>
      if stripS pid ≠ "" ∧ pid ∉ ids then
        let ids2 := ids ++ [pid]
        if (ids2.length : Int) ≥ limit then (ids2, true) else addPids limit rest ids2
      else addPids limit rest ids
    | _ => addPids limit rest ids

def searchFields : List String := ["creator", "title", "description"]

/-- Python `data.get("orderedItems") or data.get("items") or []` followed by
iteration (a truthy non-list value would make the Python loop fault on
`item.get`; it is modelled as empty). -/
def discItems (data : Json) : List Json :=
  let pick : Option Json :=
    match data.get "orderedItems" with
    | some o => if o.truthy then some o else data.get "items"
    | none => data.get "items"
  match pick with
  | some v =>
    if v.truthy then
      match v with
      | .arr xs => xs
      | _ => []
    else []
  | none => []

/-- Python `_search_ids`: query each field in order; a non-success response
raises `RijksAPIError` (the `.error` case) immediately; otherwise PIDs are
merged with dedup until `limit` is reached. -/
def searchIdsGo (env : Env) (q : String) (limit : Int) :
    List String → List String → Except String (List String)
  | [], ids => .ok ids
  | field :: rest, ids =>
    match env.discovery field q with
    | .fail status body =>
      .error ("Search API error (" ++ toString status ++ ") via " ++ field ++ ": " ++
        (⟨body.data.take 200⟩ : String))
    | .ok data =>
      let (ids2, reached) := addPids limit (discItems data) ids
      if reached then .ok ids2 else searchIdsGo env q limit rest ids2

def searchIds (env : Env) (q : String) (limit : Int) : Except String (List String) :=
  searchIdsGo env q limit searchFields []

/-- Python `search_artworks`. The `Except` layer records the one exception
that crosses the function boundary: the `RijksAPIError` raised by
`_search_ids` on a failed discovery field (per-PID resolver failures are
caught, logged and skipped; the mapper is total). `object_type` is accepted
and, as in the source, never used. -/
def searchArtworks (env : Env) (query : String) (_objectType : Option String)
    (sort : String) (pageSize : Int) (page : Int) :
    Except String (List LegacyArt × Nat) :=
  let q := stripS query
  let sortMode := lowerS (if sort = "" then "relevance" else sort)
  let ps := min pageSize 120
  let pg := max page 1
  if q = "" then .ok ([], 0)
  else
    match searchIds env q ps with
    | .error e => .error e
    | .ok pids =>
      if pids.isEmpty then .ok ([], 0)
      else
        let rawObjects := pids.filterMap env.resolve
        let mapped := rawObjects.map (mapLinkedArtToLegacyDict env)
        let sorted := searchSort sortMode mapped
        let total := sorted.length
        let start := (pg - 1) * ps
        .ok (pySlice sorted start (start + ps), total)

/-! ### Home-page card helpers (`🏠_Home.py`)

The Home page renders each card with its own maker normalization and
paginates the filtered result list locally. -/

/-- Maker normalization of the Home card renderer: trimmed, then an
unknown-token match maps to `"Unknown artist"`, an anonymous-token match to
`"anonymous"`, anything else is kept verbatim. -/
def homeCardMaker (rawMaker : String) : String :=
  let makerNorm := stripS rawMaker
  if lowerS makerNorm ∈ ["", "unknown", "unknown artist", "onbekend",
      "onbekende kunstenaar", "n/a", "niet vermeld"] then "Unknown artist"
  else if lowerS makerNorm ∈ ["anonymous", "anoniem"] then "anonymous"
  else makerNorm

/-- Home-page `max_pages = max(1, ceil(total_filtered / per_page))` (the
page sizes offered by the UI are positive). -/
def homeMaxPages (total perPage : Nat) : Nat :=
  if perPage ≠ 0 then max 1 ((total + perPage - 1) / perPage) else 1

/-- Home-page local pagination: clamp `page_num` to `max_pages`
(`page_num = min(int(page_num), max_pages)`) and slice the filtered list. -/
def homePageItems (filtered : List α) (perPage pageNum : Nat) : List α :=
  let maxPages := homeMaxPages filtered.length perPage
  let p := min pageNum maxPages
  pySlice filtered ((p - 1 : Int) * perPage) (((p - 1 : Int) * perPage) + perPage)

/-! ### Claim-support definitions -/

/-- Did the call raise (model of a `RijksAPIError` escaping the function)? -/
def isErrorResult : Except String α → Bool
  | .error _ => true
  | .ok _ => false

/-- Linked-Art record whose only content is one maker name in the standard
`produced_by.carried_out_by[0].identified_by[0].content` position. -/
def mkMakerRecord (name : String) : Json :=
  .obj [("produced_by", .obj [("carried_out_by",
    .arr [.obj [("identified_by", .arr [.obj [("content", .str name)]])]])])]

/-- Record whose production event carries the attribution text
`"Workshop of Rembrandt van Rijn"`. -/
def workshopRecord : Json :=
  .obj [("produced_by", .obj [("referred_to_by",
    .arr [.obj [("content", .str "Workshop of Rembrandt van Rijn")]])])]

/-- Environment whose discovery endpoint fails (HTTP 500) for every field
and every query. -/
def envFail : Env :=
  { discovery := fun _ _ => .fail 500 "boom"
    resolve := fun _ => none
    htmlGet := fun _ => none }

/-- Environment whose discovery returns a single PID for every field and
whose resolver returns the empty Linked-Art record. -/
def envOne : Env :=
  { discovery := fun _ _ => .ok (.obj [("orderedItems", .arr [.obj [("id", .str "pid1")]])])
    resolve := fun _ => some (.obj [])
    htmlGet := fun _ => none }

/-- The record the mapper produces for the empty JSON object. -/
def unknownArt : LegacyArt :=
  { objectNumber := "unknown-id"
    title := "Untitled"
    principalOrFirstMaker := "Unknown artist"
    dating := { year := none, presentingDate := none }
    materials := []
    techniques := []
    productionPlaces := []
    linksWeb := none
    webImageUrl := none
    attributionTag := "unknown" }

/-- Mapped record with no derivable year. -/
def noYearArt : LegacyArt :=
  { unknownArt with principalOrFirstMaker := "a", title := "t" }

/-- Mapped record with the non-null year `0` (derivable from a
`"0000-01-01"` timespan boundary). -/
def year0Art : LegacyArt :=
  { unknownArt with principalOrFirstMaker := "b", title := "t"
                    dating := { year := some 0, presentingDate := none } }

/-- Mapped record with the year 1642. -/
def year1642Art : LegacyArt :=
  { unknownArt with principalOrFirstMaker := "c", title := "t"
                    dating := { year := some 1642, presentingDate := none } }

/-- Keys through which the mapper reads data out of a record. -/
def recKeyUsed (k : String) : Bool :=
  k ∈ ["@id", "id", "identified_by", "produced_by", "access_point"]

mutual
/-- A record carrying none of the data the mapper recognises: none of the
keys of `recKeyUsed` occurs in any object, and no string value starts with
`http` (such strings are the deep image-search candidates). -/
def noRecData : Json → Bool
  | .obj kvs => noRecDataKvs kvs
  | .arr xs => noRecDataArr xs
  | .str s => !startsWithS s "http"
  | _ => true

def noRecDataKvs : List (String × Json) → Bool
  | [] => true
  | (k, v) :: rest => !recKeyUsed k && noRecData v && noRecDataKvs rest

def noRecDataArr : List Json → Bool
  | [] => true
  | x :: rest => noRecData x && noRecDataArr rest
end

/-- Base prefix kept by the IIIF normalizer: the part of the stripped URL in
front of the appended `/full/<width>,/0/default.jpg` tail. -/
def iiifBase (u : List Char) : List Char :=
  if endsL u infoJsonSuffix then u.take (u.length - 10)
  else if hasSubL fullSegment u then takeBefore fullSegment u
  else rstripSlashL u

/-! ## Theorems

Shared helper lemmas come first; the claim theorems (`C1` … `C10`) follow,
each with its witness or counterexample. -/

/-- The classifier answers `"unknown"` whenever it is handed the unknown
sentinel as maker, whatever the record says. -/
theorem classifyAttribution_of_unknown (raw : Json) :
    classifyAttribution raw "Unknown artist" = "unknown" := by
  unfold classifyAttribution
  exact if_pos (Or.inr rfl)

/-- A slice whose start is at or beyond the end of the list is empty. -/
theorem pySlice_start_past_end (l : List α) (a b : Int) (h : (l.length : Int) ≤ a) :
    pySlice l a b = [] := by
  have hs : pySliceIdx l.length a = l.length := by
    unfold pySliceIdx
    rw [if_neg (by omega)]
    omega
  simp only [pySlice, hs, List.drop_length, List.take_nil]

/-- Shape of the achronologic sort key. -/
theorem sortKeyOf_achronologic (art : LegacyArt) :
    sortKeyOf "achronologic" art =
      .three (-sortYearOf art) (lowerS art.principalOrFirstMaker) (lowerS art.title) := rfl

/-- Shape of the chronologic sort key. -/
theorem sortKeyOf_chronologic (art : LegacyArt) :
    sortKeyOf "chronologic" art =
      .three (sortYearOf art) (lowerS art.principalOrFirstMaker) (lowerS art.title) := rfl

/-- C1 (corrected). When discovery fails for every search field — already
when it fails for the first field, `creator` — `search_artworks` raises
`RijksAPIError` instead of returning an empty result: `_search_ids` raises
on the first non-success response and `search_artworks` does not catch it. -/
theorem C1_discovery_failure_raises (env : Env) (query : String) (ot : Option String)
    (sort : String) (ps pg : Int)
    (hq : stripS query ≠ "")
    (hfail : ∀ f, (env.discovery f (stripS query)).isFail = true) :
    isErrorResult (searchArtworks env query ot sort ps pg) = true := by
  have h := hfail "creator"
  unfold searchArtworks
  rw [if_neg hq]
  cases hd : env.discovery "creator" (stripS query) with
  | ok d => rw [hd] at h; simp [DiscResp.isFail] at h
  | fail st b => simp [searchIds, searchIdsGo, searchFields, hd, isErrorResult]

/-- Witness for C1 at a concrete always-failing environment. -/
theorem C1_discovery_failure_raises_witness :
    stripS "Rembrandt" ≠ "" ∧
      isErrorResult (searchArtworks envFail "Rembrandt" none "relevance" 12 1) = true :=
  ⟨by decide, C1_discovery_failure_raises envFail "Rembrandt" none "relevance" 12 1
    (by decide) (fun _ => rfl)⟩

/-- C1 counterexample to the claim as stated: with every discovery field
failing (HTTP 500), `search_artworks` does not return `([], 0)` — it
propagates the `RijksAPIError` built from the first field. -/
theorem C1_counterexample :
    searchArtworks envFail "Rembrandt" none "relevance" 12 1 =
      .error "Search API error (500) via creator: boom" := rfl

/-- Looking up a key the mapper uses in an object carrying none of them
yields nothing. -/
theorem lookupKv_used_none (k : String) (hk : recKeyUsed k = true) :
    ∀ kvs, noRecDataKvs kvs = true → lookupKv k kvs = none := by
  intro kvs
  induction kvs with
  | nil => intro _; rfl
  | cons kv rest ih =>
    obtain ⟨k2, v⟩ := kv
    intro h
    have h0 : ((!recKeyUsed k2 && noRecData v) && noRecDataKvs rest) = true := by
      rw [← h]; rfl
    rw [Bool.and_eq_true, Bool.and_eq_true] at h0
    obtain ⟨⟨hused, _⟩, hrest⟩ := h0
    have hused' : recKeyUsed k2 = false := by simpa using hused
    unfold lookupKv
    rw [if_neg fun he => by rw [he, hk] at hused'; cases hused']
    exact ih hrest

/-- `raw.get k` for a mapper key on a record with no recognised data. -/
theorem jsonGet_used_none (raw : Json) (k : String) (hk : recKeyUsed k = true)
    (h : noRecData raw = true) : raw.get k = none := by
  cases raw with
  | obj kvs =>
    have hkvs : noRecDataKvs kvs = true := by simpa [noRecData] using h
    exact lookupKv_used_none k hk kvs hkvs
  | null => rfl
  | bool b => rfl
  | num n => rfl
  | str s => rfl
  | arr xs => rfl

/-- The direct access-point check finds nothing without an `access_point`
key. -/
theorem accessPointHere_none (kvs : List (String × Json)) (h : noRecDataKvs kvs = true) :
    accessPointHere kvs = none := by
  unfold accessPointHere
  rw [lookupKv_used_none "access_point" (by decide) kvs h]

mutual
theorem extractAccessPointUrl_none : ∀ j, noRecData j = true → extractAccessPointUrl j = none
  | .obj kvs, h => by
    have hk : noRecDataKvs kvs = true := by simpa [noRecData] using h
    unfold extractAccessPointUrl
    rw [accessPointHere_none kvs hk]
    exact accessPointInKvs_none kvs hk
  | .arr xs, h => by
    have hx : noRecDataArr xs = true := by simpa [noRecData] using h
    exact accessPointInArr_none xs hx
  | .null, _ => rfl
  | .bool _, _ => rfl
  | .num _, _ => rfl
  | .str _, _ => rfl

theorem accessPointInKvs_none : ∀ kvs, noRecDataKvs kvs = true → accessPointInKvs kvs = none
  | [], _ => rfl
  | (k, v) :: rest, h => by
    have h0 : ((!recKeyUsed k && noRecData v) && noRecDataKvs rest) = true := by
      rw [← h]; rfl
    rw [Bool.and_eq_true, Bool.and_eq_true] at h0
    obtain ⟨⟨_, hv⟩, hrest⟩ := h0
    unfold accessPointInKvs
    rw [extractAccessPointUrl_none v hv]
    exact accessPointInKvs_none rest hrest

theorem accessPointInArr_none : ∀ xs, noRecDataArr xs = true → accessPointInArr xs = none
  | [], _ => rfl
  | x :: rest, h => by
    have h0 : (noRecData x && noRecDataArr rest) = true := by rw [← h]; rfl
    rw [Bool.and_eq_true] at h0
    obtain ⟨hx, hrest⟩ := h0
    unfold accessPointInArr
    rw [extractAccessPointUrl_none x hx]
    exact accessPointInArr_none rest hrest
end

mutual
theorem httpCandidates_nil : ∀ j, noRecData j = true → httpCandidates j = []
  | .obj kvs, h => by
    have hk : noRecDataKvs kvs = true := by simpa [noRecData] using h
    exact httpCandidatesKvs_nil kvs hk
  | .arr xs, h => by
    have hx : noRecDataArr xs = true := by simpa [noRecData] using h
    exact httpCandidatesArr_nil xs hx
  | .str s, h => by
    have hs : startsWithS s "http" = false := by simpa [noRecData] using h
    simp [httpCandidates, hs]
  | .null, _ => rfl
  | .bool _, _ => rfl
  | .num _, _ => rfl

theorem httpCandidatesKvs_nil : ∀ kvs, noRecDataKvs kvs = true → httpCandidatesKvs kvs = []
  | [], _ => rfl
  | (k, v) :: rest, h => by
    have h0 : ((!recKeyUsed k && noRecData v) && noRecDataKvs rest) = true := by
      rw [← h]; rfl
    rw [Bool.and_eq_true, Bool.and_eq_true] at h0
    obtain ⟨⟨_, hv⟩, hrest⟩ := h0
    unfold httpCandidatesKvs
    rw [httpCandidates_nil v hv, httpCandidatesKvs_nil rest hrest]
    rfl

theorem httpCandidatesArr_nil : ∀ xs, noRecDataArr xs = true → httpCandidatesArr xs = []
  | [], _ => rfl
  | x :: rest, h => by
    have h0 : (noRecData x && noRecDataArr rest) = true := by rw [← h]; rfl
    rw [Bool.and_eq_true] at h0
    obtain ⟨hx, hrest⟩ := h0
    unfold httpCandidatesArr
    rw [httpCandidates_nil x hx, httpCandidatesArr_nil rest hrest]
    rfl
end

theorem titleOf_default (raw : Json) (h : noRecData raw = true) : titleOf raw = "Untitled" := by
  unfold titleOf
  rw [jsonGet_used_none raw "identified_by" (by decide) h]

theorem pidUrlOf_none (raw : Json) (h : noRecData raw = true) : pidUrlOf raw = none := by
  unfold pidUrlOf pidKeyVal
  rw [jsonGet_used_none raw "@id" (by decide) h, jsonGet_used_none raw "id" (by decide) h]

theorem publicUrlOf_none (raw : Json) (h : noRecData raw = true) : publicUrlOf raw = none := by
  unfold publicUrlOf
  rw [extractAccessPointUrl_none raw h]
  rfl

theorem objectNumberOf_default (raw : Json) (h : noRecData raw = true) :
    objectNumberOf raw = "unknown-id" := by
  simp only [objectNumberOf, pidUrlOf_none raw h, publicUrlOf_none raw h,
    jsonGet_used_none raw "identified_by" (by decide) h]
  decide

theorem stableWebUrlOf_none (raw : Json) (h : noRecData raw = true) :
    stableWebUrlOf raw = none := by
  simp only [stableWebUrlOf, objectNumberOf_default raw h, publicUrlOf_none raw h,
    pidUrlOf_none raw h]
  decide

theorem extractPrincipalMaker_default (raw : Json) (h : noRecData raw = true) :
    extractPrincipalMaker raw = "Unknown artist" := by
  unfold extractPrincipalMaker
  rw [jsonGet_used_none raw "produced_by" (by decide) h]

theorem principalResolved_default (env : Env) (raw : Json) (h : noRecData raw = true) :
    principalResolved env raw = "Unknown artist" := by
  simp only [principalResolved, extractPrincipalMaker_default raw h, stableWebUrlOf_none raw h]
  decide

theorem datingOf_default (raw : Json) (h : noRecData raw = true) :
    datingOf raw = { year := none, presentingDate := none } := by
  simp only [datingOf, jsonGet_used_none raw "produced_by" (by decide) h]

theorem extractImageUrlFromLinkedArt_none (env : Env) (raw : Json) (h : noRecData raw = true) :
    extractImageUrlFromLinkedArt env raw = none := by
  simp only [extractImageUrlFromLinkedArt, deepFindIiifImageUrl, httpCandidates_nil raw h,
    extractAccessPointUrl_none raw h, List.find?_nil]

/-- C2 (confirmed). For every record carrying none of the recognised data
(no mapper key anywhere and no `http`-prefixed string value — the empty
JSON object in particular) and every environment, the mapper yields the
`"Untitled"` / `"Unknown artist"` / `"unknown"` defaults, a null year and no
image URL; the embedded mapper is a total function, so no exception is
possible. -/
theorem C2_map_record_defaults (env : Env) (raw : Json) (h : noRecData raw = true) :
    (mapLinkedArtToLegacyDict env raw).title = "Untitled" ∧
    (mapLinkedArtToLegacyDict env raw).principalOrFirstMaker = "Unknown artist" ∧
    (mapLinkedArtToLegacyDict env raw).attributionTag = "unknown" ∧
    (mapLinkedArtToLegacyDict env raw).dating.year = none ∧
    (mapLinkedArtToLegacyDict env raw).webImageUrl = none := by
  refine ⟨?_, ?_, ?_, ?_, ?_⟩
  · show titleOf raw = "Untitled"
    exact titleOf_default raw h
  · show principalResolved env raw = "Unknown artist"
    exact principalResolved_default env raw h
  · show classifyAttribution raw (principalResolved env raw) = "unknown"
    rw [principalResolved_default env raw h]
    exact classifyAttribution_of_unknown raw
  · show (datingOf raw).year = none
    rw [datingOf_default raw h]
  · show extractImageUrlFromLinkedArt env raw = none
    exact extractImageUrlFromLinkedArt_none env raw h

/-- Witness for C2 at the empty JSON object. -/
theorem C2_map_record_defaults_witness :
    noRecData (.obj []) = true ∧
      ((mapLinkedArtToLegacyDict envOne (.obj [])).title = "Untitled" ∧
        (mapLinkedArtToLegacyDict envOne (.obj [])).principalOrFirstMaker = "Unknown artist" ∧
        (mapLinkedArtToLegacyDict envOne (.obj [])).attributionTag = "unknown" ∧
        (mapLinkedArtToLegacyDict envOne (.obj [])).dating.year = none ∧
        (mapLinkedArtToLegacyDict envOne (.obj [])).webImageUrl = none) :=
  ⟨by decide, C2_map_record_defaults envOne (.obj []) (by decide)⟩

/-- C3 (confirmed, against the Home-page card normalization, the place in
the repository where the anonymous-token mapping lives). Unknown tokens and
blank input normalize to `"Unknown artist"`; the anonymous tokens to
`"anonymous"`; all tokens outside the two sets are kept verbatim after
trimming — in particular `"Johannes Vermeer"`. -/
theorem C3_maker_name_normalization :
    (∀ s : String,
      lowerS (stripS s) = "unknown" ∨ lowerS (stripS s) = "onbekend" ∨ stripS s = "" →
        homeCardMaker s = "Unknown artist") ∧
    (∀ s : String,
      lowerS (stripS s) = "anonymous" ∨ lowerS (stripS s) = "anoniem" →
        homeCardMaker s = "anonymous") ∧
    (∀ s : String,
      lowerS (stripS s) ∉ ["", "unknown", "unknown artist", "onbekend",
        "onbekende kunstenaar", "n/a", "niet vermeld", "anonymous", "anoniem"] →
        homeCardMaker s = stripS s) ∧
    homeCardMaker "unknown" = "Unknown artist" ∧
    homeCardMaker "Onbekend" = "Unknown artist" ∧
    homeCardMaker "" = "Unknown artist" ∧
    homeCardMaker "  " = "Unknown artist" ∧
    homeCardMaker "anonymous" = "anonymous" ∧
    homeCardMaker "Anoniem" = "anonymous" ∧
    homeCardMaker "Johannes Vermeer" = "Johannes Vermeer" := by
  refine ⟨?_, ?_, ?_, by decide, by decide, by decide, by decide, by decide, by decide, by decide⟩
  · intro s h
    unfold homeCardMaker
    rcases h with h | h | h
    · rw [if_pos (by rw [h]; decide)]
    · rw [if_pos (by rw [h]; decide)]
    · rw [if_pos (by rw [h]; decide)]
  · intro s h
    unfold homeCardMaker
    rcases h with h | h
    · rw [if_neg (by rw [h]; decide), if_pos (by rw [h]; decide)]
    · rw [if_neg (by rw [h]; decide), if_pos (by rw [h]; decide)]
  · intro s h
    simp only [List.mem_cons, List.not_mem_nil, or_false, not_or] at h
    obtain ⟨h1, h2, h3, h4, h5, h6, h7, h8, h9⟩ := h
    unfold homeCardMaker
    rw [if_neg (by simp only [List.mem_cons, List.not_mem_nil, or_false]; tauto),
      if_neg (by simp only [List.mem_cons, List.not_mem_nil, or_false]; tauto)]

/-- Witness for C3 at the anonymous token `"Anoniem"`. -/
theorem C3_maker_name_normalization_witness :
    (lowerS (stripS "Anoniem") = "anonymous" ∨ lowerS (stripS "Anoniem") = "anoniem") ∧
      homeCardMaker "Anoniem" = "anonymous" :=
  ⟨by decide, C3_maker_name_normalization.2.1 "Anoniem" (by decide)⟩

/-- C4 (confirmed). For every environment and raw record, if the mapped
record's principal maker is the `"Unknown artist"` sentinel then its
attribution tag is `"unknown"`: the classifier is called with the resolved
maker and returns `"unknown"` immediately for the sentinel. -/
theorem C4_unknown_maker_has_unknown_tag (env : Env) (raw : Json)
    (h : (mapLinkedArtToLegacyDict env raw).principalOrFirstMaker = "Unknown artist") :
    (mapLinkedArtToLegacyDict env raw).attributionTag = "unknown" := by
  have h' : principalResolved env raw = "Unknown artist" := h
  show classifyAttribution raw (principalResolved env raw) = "unknown"
  rw [h']
  exact classifyAttribution_of_unknown raw

/-- Witness for C4 at the empty record. -/
theorem C4_unknown_maker_has_unknown_tag_witness :
    (mapLinkedArtToLegacyDict envOne (.obj [])).principalOrFirstMaker = "Unknown artist" ∧
      (mapLinkedArtToLegacyDict envOne (.obj [])).attributionTag = "unknown" :=
  ⟨by decide, C4_unknown_maker_has_unknown_tag envOne (.obj []) (by decide)⟩

/-- C5 (confirmed). On a production event whose attribution text is
`"Workshop of Rembrandt van Rijn"` with resolved maker
`"Rembrandt van Rijn"`, the classifier answers `"workshop"`, not
`"direct"`: the workshop family is tested before the generic role-colon
pattern. -/
theorem C5_workshop_before_direct :
    classifyAttribution workshopRecord "Rembrandt van Rijn" = "workshop" ∧
      classifyAttribution workshopRecord "Rembrandt van Rijn" ≠ "direct" := by
  decide

/-- C6 (corrected). Under the `achronologic` mode a record with no
derivable year gets the sentinel year `10^9` (not `-infinity`): after
negation its key is strictly below the key of every record whose year is
nonzero and below `10^9`, so the no-year record sorts BEFORE every
known-year record, not after it. -/
theorem C6_achronologic_missing_year_sorts_first (a b : LegacyArt)
    (ha : extractYear a.dating = none)
    (y : Int) (hb : extractYear b.dating = some y) (hy0 : y ≠ 0) (hylt : y < 10 ^ 9) :
    sortKeyLe (sortKeyOf "achronologic" a) (sortKeyOf "achronologic" b) = true ∧
      sortKeyLe (sortKeyOf "achronologic" b) (sortKeyOf "achronologic" a) = false := by
  have hya : sortYearOf a = 10 ^ 9 := by unfold sortYearOf; rw [ha]
  have hyb : sortYearOf b = y := by
    unfold sortYearOf
    rw [hb]
    show (if y = 0 then (10 ^ 9 : Int) else y) = y
    rw [if_neg hy0]
  rw [sortKeyOf_achronologic, sortKeyOf_achronologic, hya, hyb]
  constructor
  · simp only [sortKeyLe]
    rw [if_pos (by omega)]
  · simp only [sortKeyLe]
    rw [if_neg (by omega), if_pos (by omega)]

/-- Witness for C6: a no-year record against the year 1642. -/
theorem C6_achronologic_missing_year_sorts_first_witness :
    extractYear noYearArt.dating = none ∧ extractYear year1642Art.dating = some 1642 ∧
      sortKeyLe (sortKeyOf "achronologic" noYearArt) (sortKeyOf "achronologic" year1642Art) = true :=
  ⟨by decide, by decide,
    (C6_achronologic_missing_year_sorts_first noYearArt year1642Art (by decide) 1642
      (by decide) (by decide) (by decide)).1⟩

/-- C6 counterexample to the claim as stated: in the achronologic sort the
record without a year comes FIRST, before the record dated 1642, not after
every known-year record. -/
theorem C6_counterexample :
    searchSort "achronologic" [year1642Art, noYearArt] = [noYearArt, year1642Art] ∧
      noYearArt ≠ year1642Art := by decide

/-- C7 (corrected). Under the `chronologic` mode a null-year record's key
is strictly greater than the key of every record with a nonzero year below
the `10^9` sentinel — but NOT of a record with the non-null year `0`, which
Python's `or` conflates with a missing year. -/
theorem C7_chronologic_null_year_after_nonzero (a b : LegacyArt)
    (ha : extractYear a.dating = none)
    (y : Int) (hb : extractYear b.dating = some y) (hy0 : y ≠ 0) (hylt : y < 10 ^ 9) :
    sortKeyLe (sortKeyOf "chronologic" a) (sortKeyOf "chronologic" b) = false := by
  have hya : sortYearOf a = 10 ^ 9 := by unfold sortYearOf; rw [ha]
  have hyb : sortYearOf b = y := by
    unfold sortYearOf
    rw [hb]
    show (if y = 0 then (10 ^ 9 : Int) else y) = y
    rw [if_neg hy0]
  rw [sortKeyOf_chronologic, sortKeyOf_chronologic, hya, hyb]
  simp only [sortKeyLe]
  rw [if_neg (by omega), if_pos (by omega)]

/-- Witness for C7: a null-year record against the year 1642. -/
theorem C7_chronologic_null_year_after_nonzero_witness :
    extractYear noYearArt.dating = none ∧ extractYear year1642Art.dating = some 1642 ∧
      sortKeyLe (sortKeyOf "chronologic" noYearArt) (sortKeyOf "chronologic" year1642Art) = false :=
  ⟨by decide, by decide,
    C7_chronologic_null_year_after_nonzero noYearArt year1642Art (by decide) 1642
      (by decide) (by decide) (by decide)⟩

/-- C7 counterexample to the claim as stated: a record with the non-null
year `0` is treated as year-less (`0` is falsy), and the null-year record
`noYearArt` sorts BEFORE it (its maker ties break the comparison), in
either input order. -/
theorem C7_counterexample :
    searchSort "chronologic" [noYearArt, year0Art] = [noYearArt, year0Art] ∧
      searchSort "chronologic" [year0Art, noYearArt] = [noYearArt, year0Art] ∧
      noYearArt.dating.year = none ∧ year0Art.dating.year = some 0 ∧
      noYearArt ≠ year0Art := by decide

/-! ### Lemmas about the IIIF normalizer (claim C8) -/

theorem leadMatch_append_self (n y : List Char) : leadMatch n (n ++ y) = true := by
  induction n with
  | nil => rfl
  | cons m ms ih => simp [leadMatch, ih]

theorem leadMatch_append_ext (p a b : List Char) (h : leadMatch p a = true) :
    leadMatch p (a ++ b) = true := by
  induction p generalizing a with
  | nil => rfl
  | cons q qs ih =>
    cases a with
    | nil => simp [leadMatch] at h
    | cons c t =>
      simp only [List.cons_append, leadMatch, Bool.and_eq_true] at h ⊢
      exact ⟨h.1, ih t h.2⟩

theorem leadMatch_append_false (p a b : List Char) (h : leadMatch p a = false)
    (hlen : p.length ≤ a.length) : leadMatch p (a ++ b) = false := by
  induction p generalizing a with
  | nil => simp [leadMatch] at h
  | cons q qs ih =>
    cases a with
    | nil => simp at hlen
    | cons c t =>
      simp only [List.cons_append, leadMatch] at h ⊢
      cases hqc : (q == c) with
      | false => simp [hqc]
      | true =>
        rw [hqc, Bool.true_and] at h
        rw [Bool.true_and]
        exact ih t h (by simp only [List.length_cons] at hlen; omega)

theorem leadMatch_append_split (n l1 l2 : List Char) (h : leadMatch n (l1 ++ l2) = true) :
    (n.length ≤ l1.length ∧ leadMatch n l1 = true) ∨
    (l1.length < n.length ∧ l1 = n.take l1.length ∧ leadMatch (n.drop l1.length) l2 = true) := by
  induction l1 generalizing n with
  | nil =>
    cases n with
    | nil => exact Or.inl ⟨Nat.le_refl 0, rfl⟩
    | cons m ms =>
      refine Or.inr ⟨by simp, rfl, ?_⟩
      simpa using h
  | cons c t ih =>
    cases n with
    | nil => exact Or.inl ⟨by simp, rfl⟩
    | cons m ms =>
      simp only [List.cons_append, leadMatch, Bool.and_eq_true] at h
      obtain ⟨hmc, hrest⟩ := h
      have hmc' : m = c := by simpa using hmc
      rcases ih ms hrest with ⟨hlen, hlm⟩ | ⟨hlen, htake, hdrop⟩
      · refine Or.inl ⟨?_, ?_⟩
        · simp only [List.length_cons]; omega
        · simp only [leadMatch, Bool.and_eq_true]; exact ⟨hmc, hlm⟩
      · refine Or.inr ⟨?_, ?_, ?_⟩
        · simp only [List.length_cons]; omega
        · show c :: t = (m :: ms).take (t.length + 1)
          rw [List.take_succ_cons, hmc', ← htake]
        · show leadMatch ((m :: ms).drop (t.length + 1)) l2 = true
          rw [List.drop_succ_cons]
          exact hdrop

theorem hasSubL_of_leadMatch (n l : List Char) (h : leadMatch n l = true) :
    hasSubL n l = true := by
  cases l with
  | nil => simpa [hasSubL] using h
  | cons c t => simp [hasSubL, h]

theorem hasSubL_append_mid (x n y : List Char) : hasSubL n (x ++ (n ++ y)) = true := by
  induction x with
  | nil => exact hasSubL_of_leadMatch n (n ++ y) (leadMatch_append_self n y)
  | cons c t ih =>
    show hasSubL n (c :: (t ++ (n ++ y))) = true
    simp [hasSubL, ih]

theorem hasSubL_cons_false (n : List Char) (c : Char) (t : List Char)
    (h : hasSubL n (c :: t) = false) : hasSubL n t = false := by
  have h' := h
  unfold hasSubL at h'
  cases hb : hasSubL n t with
  | false => rfl
  | true => rw [hb] at h'; simp at h'

theorem takeBefore_of_leadMatch (n l : List Char) (h : leadMatch n l = true) :
    takeBefore n l = [] := by
  cases l with
  | nil => rfl
  | cons c t => simp [takeBefore, h]

theorem endsL_cons_false (c : Char) (t s : List Char) (h : endsL (c :: t) s = false) :
    endsL t s = false := by
  cases hb : endsL t s with
  | false => rfl
  | true =>
    have hc2 : endsL (c :: t) s = true := by
      unfold endsL at hb ⊢
      rw [List.reverse_cons]
      exact leadMatch_append_ext _ _ _ hb
    rw [hc2] at h
    exact Bool.noConfusion h

/-- The only way `/full/` can match while overlapping its own copy is with
an offset of five characters (the pattern has period 5, not 1–4). -/
theorem fullSegment_overlap (k : Nat) (hk1 : 1 ≤ k) (hk6 : k < 6) (rest : List Char)
    (hdrop : leadMatch (fullSegment.drop k) (fullSegment ++ rest) = true) : k = 5 := by
  rcases leadMatch_append_split _ _ _ hdrop with ⟨_, hlm⟩ | ⟨hlen2, _, _⟩
  · interval_cases k
    · exact absurd hlm (by decide)
    · exact absurd hlm (by decide)
    · exact absurd hlm (by decide)
    · exact absurd hlm (by decide)
    · rfl
  · have h6 : fullSegment.length = 6 := by decide
    rw [List.length_drop] at hlen2
    omega

/-- Cutting at the first `/full/` of `b ++ /full/ ++ rest` recovers `b`
exactly when `b` neither contains `/full/` nor ends in `/full`. -/
theorem takeBefore_append_of_clean (b rest : List Char)
    (hc : hasSubL fullSegment b = false)
    (he : endsL b "/full".data = false) :
    takeBefore fullSegment (b ++ (fullSegment ++ rest)) = b := by
  induction b with
  | nil => exact takeBefore_of_leadMatch _ _ (leadMatch_append_self fullSegment rest)
  | cons c t ih =>
    have hnl : leadMatch fullSegment (c :: (t ++ (fullSegment ++ rest))) = false := by
      cases hx : leadMatch fullSegment (c :: (t ++ (fullSegment ++ rest))) with
      | false => rfl
      | true =>
        exfalso
        have hx' : leadMatch fullSegment ((c :: t) ++ (fullSegment ++ rest)) = true := hx
        rcases leadMatch_append_split _ _ _ hx' with ⟨_, hlm⟩ | ⟨hlen, htake, hdrop⟩
        · have hsub := hasSubL_of_leadMatch _ _ hlm
          rw [hsub] at hc
          exact Bool.noConfusion hc
        · have hk6 : (c :: t).length < 6 := by
            have h6 : fullSegment.length = 6 := by decide
            omega
          have hk1 : 1 ≤ (c :: t).length := by simp
          have hk5 := fullSegment_overlap _ hk1 hk6 rest hdrop
          rw [hk5] at htake
          have ht5 : fullSegment.take 5 = "/full".data := by decide
          rw [ht5] at htake
          rw [htake] at he
          exact absurd he (by decide)
    show takeBefore fullSegment (c :: (t ++ (fullSegment ++ rest))) = c :: t
    unfold takeBefore
    rw [if_neg fun hx => Bool.noConfusion (hnl.symm.trans hx)]
    rw [ih (hasSubL_cons_false _ _ _ hc) (endsL_cons_false _ _ _ he)]

/-- The normalizer's output never ends in `/info.json`. -/
theorem endsL_append_tail_not_info (b : List Char) (w : Nat) :
    endsL (b ++ iiifTail w) infoJsonSuffix = false := by
  unfold endsL
  rw [List.reverse_append]
  have hsplit : (iiifTail w).reverse =
      ",/0/default.jpg".data.reverse ++ ((toString w).data.reverse ++ fullSegment.reverse) := by
    unfold iiifTail
    rw [List.reverse_append, List.reverse_append]
  rw [hsplit, List.append_assoc]
  apply leadMatch_append_false
  · decide
  · decide

theorem head?_eq_of_prefixOf {l₁ l₂ : List Char} (h : l₁ <+: l₂) (hne : l₁ ≠ []) :
    l₂.head? = l₁.head? := by
  obtain ⟨t, rfl⟩ := h
  cases l₁ with
  | nil => exact absurd rfl hne
  | cons c cs => rfl

theorem reverse_dropWhile_reverse_prefixOf (p : Char → Bool) (l : List Char) :
    (l.reverse.dropWhile p).reverse <+: l := by
  rw [← List.reverse_suffix, List.reverse_reverse]
  exact List.dropWhile_suffix p

theorem dropWhile_head?_false (p : Char → Bool) (l : List Char) (c : Char)
    (h : (l.dropWhile p).head? = some c) : p c = false := by
  induction l with
  | nil => simp [List.dropWhile] at h
  | cons a t ih =>
    rw [List.dropWhile_cons] at h
    by_cases hp : p a = true
    · rw [if_pos hp] at h
      exact ih h
    · rw [if_neg hp] at h
      have hac : a = c := by simpa using h
      rw [← hac]
      simpa using hp

theorem stripL_pre (l : List Char) : stripL l <+: l.dropWhile pyIsWs :=
  reverse_dropWhile_reverse_prefixOf pyIsWs (l.dropWhile pyIsWs)

theorem stripL_head_not_ws (l : List Char) (c : Char) (h : (stripL l).head? = some c) :
    pyIsWs c = false := by
  have hne : stripL l ≠ [] := by intro hnil; rw [hnil] at h; cases h
  have h2 := head?_eq_of_prefixOf (stripL_pre l) hne
  exact dropWhile_head?_false pyIsWs l c (by rw [h2, h])

/-- Stripping is the identity on a list with no leading and no trailing
whitespace. -/
theorem stripL_eq_self (l : List Char)
    (hhead : ∀ c, l.head? = some c → pyIsWs c = false)
    (hlast : ∀ c, l.reverse.head? = some c → pyIsWs c = false) :
    stripL l = l := by
  have h1 : l.dropWhile pyIsWs = l := by
    cases l with
    | nil => rfl
    | cons a t =>
      rw [List.dropWhile_cons, if_neg]
      intro hx
      rw [hhead a rfl] at hx
      exact Bool.noConfusion hx
  unfold stripL
  rw [h1]
  have h2 : l.reverse.dropWhile pyIsWs = l.reverse := by
    cases hr : l.reverse with
    | nil => rfl
    | cons a t =>
      rw [List.dropWhile_cons, if_neg]
      intro hx
      rw [hlast a (by rw [hr]; rfl)] at hx
      exact Bool.noConfusion hx
  rw [h2, List.reverse_reverse]

theorem takeBefore_prefixOf (n l : List Char) : takeBefore n l <+: l := by
  induction l with
  | nil => simp [takeBefore]
  | cons c t ih =>
    unfold takeBefore
    by_cases hl : leadMatch n (c :: t) = true
    · rw [if_pos hl]; exact List.nil_prefix
    · rw [if_neg hl]
      obtain ⟨r, hr⟩ := ih
      exact ⟨r, by rw [List.cons_append, hr]⟩

theorem iiifBase_prefixOf (s : List Char) : iiifBase s <+: s := by
  unfold iiifBase
  by_cases h1 : endsL s infoJsonSuffix = true
  · rw [if_pos h1]; exact List.take_prefix _ _
  · rw [if_neg h1]
    by_cases h2 : hasSubL fullSegment s = true
    · rw [if_pos h2]; exact takeBefore_prefixOf _ _
    · rw [if_neg h2]; exact reverse_dropWhile_reverse_prefixOf _ _

/-- The normalizer in base-plus-tail form. -/
theorem normalizeIiif_eq_base (url : List Char) (w : Nat) :
    normalizeIiifImageUrlL url w = iiifBase (stripL url) ++ iiifTail w := by
  unfold normalizeIiifImageUrlL iiifBase iiifTail
  by_cases h1 : endsL (stripL url) infoJsonSuffix = true
  · simp [h1]
  · by_cases h2 : hasSubL fullSegment (stripL url) = true
    · simp [h1, h2]
    · simp [h1, h2]

/-- Applying the normalizer to a clean `b ++ tail` output returns it
unchanged. -/
theorem normalizeIiif_idem_aux (b : List Char) (w : Nat)
    (hhead : ∀ c, b.head? = some c → pyIsWs c = false)
    (h1 : hasSubL fullSegment b = false)
    (h2 : endsL b "/full".data = false) :
    normalizeIiifImageUrlL (b ++ iiifTail w) w = b ++ iiifTail w := by
  have hfs : fullSegment = '/' :: "full/".data := by decide
  have hshape : iiifTail w = fullSegment ++ ((toString w).data ++ ",/0/default.jpg".data) := by
    unfold iiifTail
    rw [List.append_assoc]
  have hstrip : stripL (b ++ iiifTail w) = b ++ iiifTail w := by
    apply stripL_eq_self
    · intro c hc
      cases b with
      | nil =>
        rw [List.nil_append] at hc
        have hh : (iiifTail w).head? = some '/' := by
          rw [hshape, hfs]
          rfl
        rw [hh] at hc
        injection hc with hcc
        rw [← hcc]
        decide
      | cons b0 bt =>
        have hb0 : ((b0 :: bt) ++ iiifTail w).head? = some b0 := rfl
        rw [hb0] at hc
        injection hc with hcc
        rw [← hcc]
        exact hhead b0 rfl
    · intro c hc
      have hjr : ",/0/default.jpg".data.reverse = 'g' :: "pj.tluafed/0/,".data := by decide
      have hrev : (b ++ iiifTail w).reverse.head? = some 'g' := by
        rw [List.reverse_append, hshape, List.reverse_append, List.reverse_append, hjr]
        rfl
      rw [hrev] at hc
      injection hc with hcc
      rw [← hcc]
      decide
  have hnotinfo : endsL (b ++ iiifTail w) infoJsonSuffix = false :=
    endsL_append_tail_not_info b w
  have hhasfull : hasSubL fullSegment (b ++ iiifTail w) = true := by
    rw [hshape]
    exact hasSubL_append_mid b fullSegment _
  have htb : takeBefore fullSegment (b ++ iiifTail w) = b := by
    rw [hshape]
    exact takeBefore_append_of_clean b _ h1 h2
  rw [normalizeIiif_eq_base _ w, hstrip]
  unfold iiifBase
  rw [if_neg fun hx => Bool.noConfusion (hnotinfo.symm.trans hx), if_pos hhasfull, htb]

/-- C8 (corrected). The output of `_normalize_iiif_image_url` always ends in
`full/<width>,/0/default.jpg`; a second application returns the output
unchanged whenever the kept base neither contains `/full/` nor ends in
`/full` — the idempotence claim fails without that proviso (see the
counterexample). -/
theorem C8_normalize_iiif_url (url : List Char) (w : Nat)
    (h1 : hasSubL fullSegment (iiifBase (stripL url)) = false)
    (h2 : endsL (iiifBase (stripL url)) "/full".data = false) :
    (∃ pre, normalizeIiifImageUrlL url w =
      pre ++ ("full/".data ++ ((toString w).data ++ ",/0/default.jpg".data))) ∧
    normalizeIiifImageUrlL (normalizeIiifImageUrlL url w) w = normalizeIiifImageUrlL url w := by
  have hout : normalizeIiifImageUrlL url w = iiifBase (stripL url) ++ iiifTail w :=
    normalizeIiif_eq_base url w
  have hfs : fullSegment = '/' :: "full/".data := by decide
  constructor
  · refine ⟨iiifBase (stripL url) ++ ['/'], ?_⟩
    rw [hout]
    unfold iiifTail
    rw [hfs]
    simp [List.append_assoc]
  · rw [hout]
    apply normalizeIiif_idem_aux
    · intro c hc
      have hne : iiifBase (stripL url) ≠ [] := by
        intro hnil
        rw [hnil] at hc
        cases hc
      have hh := head?_eq_of_prefixOf (iiifBase_prefixOf (stripL url)) hne
      exact stripL_head_not_ws url c (by rw [hh, hc])
    · exact h1
    · exact h2

/-- Witness for C8 at a plain `info.json` URL whose base is clean. -/
theorem C8_normalize_iiif_url_witness :
    hasSubL fullSegment (iiifBase (stripL "https://x/y/info.json".data)) = false ∧
      endsL (iiifBase (stripL "https://x/y/info.json".data)) "/full".data = false ∧
      normalizeIiifImageUrlL (normalizeIiifImageUrlL "https://x/y/info.json".data 900) 900 =
        normalizeIiifImageUrlL "https://x/y/info.json".data 900 :=
  ⟨by decide, by decide,
    (C8_normalize_iiif_url "https://x/y/info.json".data 900 (by decide) (by decide)).2⟩

/-- C8 counterexample to idempotence as claimed: for the URL
`http://x/full/y/info.json` the first application keeps the base
`http://x/full/y`, and the second application re-cuts at the earlier
`/full/`, producing a different string. -/
theorem C8_counterexample :
    normalizeIiifImageUrl (normalizeIiifImageUrl "http://x/full/y/info.json" 900) 900 ≠
      normalizeIiifImageUrl "http://x/full/y/info.json" 900 := by decide

/-- C9 (corrected). `search_artworks` clamps `page` from below to 1 but has
no upper clamp: whenever `(max(page,1) - 1) * min(page_size, 120)` is at
least the total, the returned slice is EMPTY, not the last page. -/
theorem C9_beyond_last_page_empty (env : Env) (query : String) (ot : Option String)
    (sort : String) (ps pg : Int) (items : List LegacyArt) (total : Nat)
    (hok : searchArtworks env query ot sort ps pg = .ok (items, total))
    (hbeyond : (total : Int) ≤ (max pg 1 - 1) * min ps 120) :
    items = [] := by
  simp only [searchArtworks] at hok
  split at hok
  · simp only [Except.ok.injEq, Prod.mk.injEq] at hok
    exact hok.1.symm
  · split at hok
    · simp at hok
    · split at hok
      · simp only [Except.ok.injEq, Prod.mk.injEq] at hok
        exact hok.1.symm
      · simp only [Except.ok.injEq, Prod.mk.injEq] at hok
        obtain ⟨hitems, htot⟩ := hok
        rw [← hitems]
        apply pySlice_start_past_end
        rw [htot]
        exact hbeyond

/-- Witness for C9: one mapped result, page 2 of size 12 is empty. -/
theorem C9_beyond_last_page_empty_witness :
    searchArtworks envOne "rembrandt" none "relevance" 12 2 = .ok ([], 1) ∧
      ((1 : Nat) : Int) ≤ (max 2 1 - 1) * min 12 120 ∧
      ([] : List LegacyArt) = [] :=
  ⟨rfl, by decide,
    C9_beyond_last_page_empty envOne "rembrandt" none "relevance" 12 2 [] 1 rfl (by decide)⟩

/-- C9 counterexample to the claim as stated: with one result in total,
page 2 (size 12) returns the empty list, not the last page's single item. -/
theorem C9_counterexample :
    searchArtworks envOne "rembrandt" none "relevance" 12 2 = .ok ([], 1) ∧
      searchArtworks envOne "rembrandt" none "relevance" 12 1 = .ok ([unknownArt], 1) ∧
      ([] : List LegacyArt) ≠ [unknownArt] :=
  ⟨rfl, rfl, by decide⟩

/-- C10 (confirmed). A query that strips to the empty string makes
`search_artworks` return `([], 0)` for every environment, object type, sort
mode, page size and page. -/
theorem C10_blank_query_yields_empty (env : Env) (query : String) (ot : Option String)
    (sort : String) (ps pg : Int) (h : stripS query = "") :
    searchArtworks env query ot sort ps pg = .ok ([], 0) := by
  unfold searchArtworks
  rw [if_pos h]

/-- Witness for C10 at a whitespace query, adversarial parameters and a
failing environment. -/
theorem C10_blank_query_yields_empty_witness :
    stripS "   " = "" ∧
      searchArtworks envFail "   " none "achronologic" (-3) 0 = .ok ([], 0) :=
  ⟨by decide, C10_blank_query_yields_empty envFail "   " none "achronologic" (-3) 0 (by decide)⟩

end Rijks
